import Mathlib

/-!
Verification of the saute text editor core (src/main.rs, src/res_man.rs,
src/screen_manager.rs) against its natural-language specification.

Conventions of the shallow embedding:
* Rust `u32` values are modelled as `Nat`, with the wrapping (release-mode)
  semantics of `u32` arithmetic made explicit: every `+`/`-` the source
  performs on a `u32` is mapped to `wrapAdd`/`wrapSub1` below, and every
  `as u32` truncation to `u32Mod`.
* Operations that can panic in Rust independently of build profile
  (`Vec::insert` / `Vec::remove` out of bounds, division by zero) are
  modelled as `Option`-returning functions where `none` is the panic.
* Side effects that do not touch program state (`println!`, `dbg!`,
  drawing to the SDL canvas) are dropped; the rectangles the code hands
  to the canvas are collected in lists instead so that theorems can talk
  about them.
-/

def u32size : Nat := 4294967296

/-- Truncating `as u32` cast. -/
def u32Mod (n : Nat) : Nat := n % u32size

/-- Wrapping `u32` addition. -/
def wrapAdd (a b : Nat) : Nat := (a + b) % u32size

/-- Wrapping `u32` subtraction of `1` (the only subtrahend this code uses). -/
def wrapSub1 (a : Nat) : Nat := (a + (u32size - 1)) % u32size

/-- Reinterpret a `u32` value as an `i32` (the `as i32` casts in the source). -/
def i32OfU32 (n : Nat) : Int :=
  if n % u32size < 2147483648 then ((n % u32size : Nat) : Int)
  else ((n % u32size : Nat) : Int) - (u32size : Int)

/-- `sdl2::rect::Rect` (an `i32` position with a `u32` size). -/
structure Rect where
  x : Int
  y : Int
  width : Nat
  height : Nat
deriving DecidableEq

/-- `res_man.rs`: `FontChar` — a placed glyph: the literal character plus
its bitmap bounding box and metrics. -/
structure FontChar where
  ch : Char
  bbox : Rect
  _ax : Nat
  _ay : Nat
  bl : Int
  bt : Int
deriving DecidableEq

/-- `screen_manager.rs`: the `TextScreen` state (`ScreenLine` carries no
claim and is not modelled). -/
structure TextScreen where
  content : List FontChar
  width : Nat
  height : Nat
  row_height : Nat
  cursor_abs : Nat
  cursor_col : Nat
  cursor_row : Nat
  highlight_mark : Nat
  _cursor_enabled : Bool
deriving DecidableEq

namespace TextScreen

/-- `TextScreen::new`: everything `Default` except the three sizes and the
highlight mark, which starts at the `u32::MAX` sentinel. -/
def new (width height row_height : Nat) : TextScreen :=
  { content := [], width := width, height := height, row_height := row_height,
    cursor_abs := 0, cursor_col := 0, cursor_row := 0,
    highlight_mark := u32size - 1, _cursor_enabled := false }

def cursor_enabled (s : TextScreen) : Bool := s._cursor_enabled

def set_highlight_mark (s : TextScreen) (pos : Nat) : TextScreen :=
  { s with highlight_mark := pos }

/-- `TextScreen::cursor_forward`. -/
def cursor_forward (s : TextScreen) : TextScreen :=
  match s.content[s.cursor_abs]? with
  | some fch =>
      if fch.ch = '\n' then
        { s with cursor_col := 0, cursor_row := wrapAdd s.cursor_row 1,
                 cursor_abs := wrapAdd s.cursor_abs 1 }
      else
        { s with cursor_col := wrapAdd s.cursor_col 1,
                 cursor_abs := wrapAdd s.cursor_abs 1 }
  | none => s

/-- The `content.iter().rev().take_while(|x| x.ch != '\n').count()` scan
inside `cursor_back` (it runs from the end of the whole buffer). -/
def trailingRunLen (l : List FontChar) : Nat :=
  (l.reverse.takeWhile (fun f => f.ch != '\n')).length

/-- `TextScreen::cursor_back`.  `self.cursor_abs - 1` is `u32` arithmetic,
so at `cursor_abs = 0` the probed index is `u32::MAX`.  The source runs
`cursor_col -= 1; cursor_abs -= 1` after the conditional block; here that
tail is inlined into both branches of the conditional. -/
def cursor_back (s : TextScreen) : TextScreen :=
  match s.content[wrapSub1 s.cursor_abs]? with
  | some _ =>
      if s.cursor_col = 0 then
        { s with cursor_row := wrapSub1 s.cursor_row,
                 cursor_col := wrapSub1 (u32Mod (trailingRunLen s.content)),
                 cursor_abs := wrapSub1 s.cursor_abs }
      else
        { s with cursor_col := wrapSub1 s.cursor_col,
                 cursor_abs := wrapSub1 s.cursor_abs }
  | none => s

/-- `TextScreen::push_char`; `Vec::insert` panics (`none`) when
`cursor_abs` exceeds the length. -/
def push_char (s : TextScreen) (fch : FontChar) : Option TextScreen :=
  if s.cursor_abs ≤ s.content.length then
    some (cursor_forward { s with content := s.content.insertIdx s.cursor_abs fch })
  else none

/-- `TextScreen::pop_char`: first `cursor_back`, then, when the content is
non-empty, `Vec::remove(cursor_abs)` — which panics (`none`) when the index
is out of bounds.  Returns the new state and the removed character, if any. -/
def pop_char (s : TextScreen) : Option (TextScreen × Option FontChar) :=
  if (cursor_back s).content.length ≠ 0 then
    if h : (cursor_back s).cursor_abs < (cursor_back s).content.length then
      some ({ cursor_back s with
                content := (cursor_back s).content.eraseIdx (cursor_back s).cursor_abs },
            some ((cursor_back s).content.get ⟨(cursor_back s).cursor_abs, h⟩))
    else none
  else some (cursor_back s, none)

/-- `TextScreen::clear`. -/
def clear (s : TextScreen) : TextScreen :=
  { s with cursor_col := 0, cursor_row := 0, cursor_abs := 0, content := [] }

end TextScreen

/-- A concrete placed glyph used by the concrete-state theorems below. -/
def mkFC (c : Char) : FontChar := ⟨c, ⟨0, 0, 0, 0⟩, 0, 0, 0, 0⟩

/-- The C2 failing input: a one-character buffer with the cursor at
absolute position 0. -/
def popAtZeroState : TextScreen := { TextScreen.new 0 0 0 with content := [mkFC 'a'] }

/-- The number of `'\n'` characters in the content strictly before
`cursor_abs` — what C5 says `cursor_row` must equal. -/
def newlinesBeforeCursor (s : TextScreen) : Nat :=
  ((s.content.take s.cursor_abs).filter (fun f => f.ch == '\n')).length

/-- The C5 failing sequence: from an empty screen, push `'a'`, `'\n'`,
`'c'`, then `cursor_back` three times. -/
def cursorRowSeq : Option TextScreen :=
  ((((TextScreen.new 800 600 32).push_char (mkFC 'a')).bind
      (fun s => s.push_char (mkFC '\n'))).bind
      (fun s => s.push_char (mkFC 'c'))).map
    (fun s => TextScreen.cursor_back (TextScreen.cursor_back (TextScreen.cursor_back s)))

/-- `main.rs`: `AtlasEntry` — per-glyph atlas record. -/
structure AtlasEntry where
  x : Nat
  y : Nat
  height : Nat
  width : Nat
  _ax : Nat
  _ay : Nat
  bl : Int
  bt : Int
deriving DecidableEq

def AtlasEntry.bbox (e : AtlasEntry) : Rect :=
  ⟨(e.x : Int), (e.y : Int), e.width, e.height⟩

/-- The `HashMap<usize, Rc<AtlasEntry>>` is modelled as an association
list where a later `insert` prepends and so shadows an earlier binding. -/
def hmInsert (m : List (Nat × AtlasEntry)) (k : Nat) (v : AtlasEntry) :
    List (Nat × AtlasEntry) := (k, v) :: m

def hmGet (m : List (Nat × AtlasEntry)) (k : Nat) : Option AtlasEntry :=
  m.lookup k

def hmKeys (m : List (Nat × AtlasEntry)) : List Nat := (m.map Prod.fst).dedup

def hmValues (m : List (Nat × AtlasEntry)) : List AtlasEntry :=
  (hmKeys m).filterMap (hmGet m)

/-- `main.rs`: `FontDef` (the variant with the `monospaced` flag; the
older `res_man.rs` variant has no such flag). -/
structure FontDef where
  glyph_height : Nat
  glyph_width : Nat
  whitespace_width : Nat
  char_spacing : Nat
  char_lookup : List (Nat × AtlasEntry)
  max_ascent : Nat
  max_descent : Nat
  max_back : Nat
  max_forward : Nat
  font_pixel_size : Nat
  monospaced : Bool
deriving DecidableEq

namespace FontDef

/-- `main.rs` `FontDef::new` (parameters in source order).  The mean glyph
width divides by `char_lookup.len() as u32`, a `u32` division that panics
(`none`) when the divisor is zero. -/
def new (char_lookup : List (Nat × AtlasEntry))
    (max_height max_width char_spacing max_ascent max_descent max_back max_forward
      font_pixel_size : Nat) (monospaced : Bool) : Option FontDef :=
  if u32Mod (hmKeys char_lookup).length = 0 then none
  else some
    { char_lookup := char_lookup, char_spacing := char_spacing,
      glyph_height := max_height, glyph_width := max_width,
      whitespace_width :=
        ((hmValues char_lookup).foldl (fun acc e => wrapAdd acc e.width) 0) /
          u32Mod (hmKeys char_lookup).length,
      max_ascent := max_ascent, max_descent := max_descent, max_back := max_back,
      max_forward := max_forward, font_pixel_size := font_pixel_size,
      monospaced := monospaced }

/-- `main.rs` `FontDef::get_char_aligned_rect`. -/
def get_char_aligned_rect (f : FontDef) (x y : Int) (info : AtlasEntry) : Rect :=
  { x := x + (if f.monospaced then (f.max_forward : Int) + info.bl else 0),
    y := y + ((f.max_ascent : Int) - info.bt),
    width := if info.width ≤ 1 then f.whitespace_width else info.width,
    height := info.height }

/-- `main.rs` `FontDef::get_char` (`Err(())` is `none`). -/
def get_char (f : FontDef) (c : Nat) : Option AtlasEntry := hmGet f.char_lookup c

end FontDef

/-- The `AtlasEntry` view of a placed `FontChar` (same metric fields; the
atlas position of a placed glyph is its `bbox` origin). -/
def FontChar.toEntry (f : FontChar) : AtlasEntry :=
  { x := f.bbox.x.toNat, y := f.bbox.y.toNat, width := f.bbox.width,
    height := f.bbox.height, _ax := f._ax, _ay := f._ay, bl := f.bl, bt := f.bt }

/-- Modelled from the spec: the `Renderable` impl for `FontChar` (the
`fch.render(target, x, y)` call inside `TextScreen::render_all`) is not
under `src/`; per spec §4.4 step 2 and §4.2 a glyph's destination
rectangle at pen position (x, y) is the FontMetrics placement rectangle
`get_char_aligned_rect` — exactly what the whitespace branch of
`render_all` computes directly. -/
def renderDst (font : FontDef) (fch : FontChar) (x y : Int) : Rect :=
  font.get_char_aligned_rect x y fch.toEntry

/-- The running state of the `render_all` loop, with the rectangles the
code hands to the canvas collected in lists: one placement per glyph, one
highlight rect per `render_highlight` call, one position per `put_cursor`
call. -/
structure RenderState where
  cur_abs : Nat
  x_offset : Nat
  y_offset : Nat
  placements : List (Nat × Rect)
  highlights : List (Nat × Rect)
  cursors : List (Int × Int)
deriving DecidableEq

/-- The destination rect of the current glyph: computed before anything
else in the loop body, at the current (pre-wrap) offsets. -/
def stepDst (font : FontDef) (x y : Nat) (st : RenderState) (fch : FontChar) : Rect :=
  renderDst font fch (i32OfU32 (wrapAdd x st.x_offset)) (i32OfU32 (wrapAdd y st.y_offset))

/-- The highlight condition of `render_all`:
`self.cursor_enabled() && self.highlight_mark < cur_abs && cur_abs <= self.cursor_abs`. -/
def hlCond (s : TextScreen) (i : Nat) : Bool :=
  s.cursor_enabled && decide (s.highlight_mark < i) && decide (i ≤ s.cursor_abs)

/-- The wrap condition of `render_all`:
`x + x_offset + fch._ax > self.width as u32 || fch.ch == '\n'`, evaluated
with `x_offset` already advanced past the current glyph. -/
def stepWrapHit (s : TextScreen) (x xOffAdv : Nat) (fch : FontChar) : Bool :=
  decide (wrapAdd (wrapAdd x xOffAdv) fch._ax > u32Mod s.width) || (fch.ch == '\n')

/-- One iteration of the `render_all` loop over a glyph `fch`. -/
def render_step (s : TextScreen) (font : FontDef) (x y : Nat) (st : RenderState)
    (fch : FontChar) : RenderState :=
  { cur_abs := wrapAdd st.cur_abs 1,
    x_offset :=
      if stepWrapHit s x (wrapAdd st.x_offset (stepDst font x y st fch).width) fch
      then 0 else wrapAdd st.x_offset (stepDst font x y st fch).width,
    y_offset :=
      if stepWrapHit s x (wrapAdd st.x_offset (stepDst font x y st fch).width) fch
      then wrapAdd st.y_offset (u32Mod s.row_height) else st.y_offset,
    placements := st.placements ++ [(wrapAdd st.cur_abs 1, stepDst font x y st fch)],
    highlights :=
      if hlCond s (wrapAdd st.cur_abs 1)
      then st.highlights ++ [(wrapAdd st.cur_abs 1, stepDst font x y st fch)]
      else st.highlights,
    cursors :=
      if s.cursor_enabled && decide (s.cursor_abs = wrapAdd st.cur_abs 1)
      then st.cursors ++
        [(i32OfU32 (wrapAdd x
            (if stepWrapHit s x (wrapAdd st.x_offset (stepDst font x y st fch).width) fch
             then 0 else wrapAdd st.x_offset (stepDst font x y st fch).width)),
          i32OfU32 (wrapAdd y
            (if stepWrapHit s x (wrapAdd st.x_offset (stepDst font x y st fch).width) fch
             then wrapAdd st.y_offset (u32Mod s.row_height) else st.y_offset)))]
      else st.cursors }

/-- The loop state before the first glyph. -/
def initRender : RenderState := ⟨0, 0, 0, [], [], []⟩

/-- `TextScreen::render_all` as a fold of the loop body over the content. -/
def TextScreen.render_all (s : TextScreen) (font : FontDef) (x y : Nat) : RenderState :=
  s.content.foldl (render_step s font x y) initRender

def hlChars : List FontChar := [mkFC 'a', mkFC 'b', mkFC 'c', mkFC 'd', mkFC 'e']

def font0 : FontDef := ⟨0, 0, 0, 0, [], 0, 0, 0, 0, 0, false⟩

/-- The C4 counterexample input: five characters with the mark (5) after
the cursor (2). -/
def markAfterCursorState : TextScreen :=
  { TextScreen.new 800 600 32 with
      content := hlChars, cursor_abs := 2, highlight_mark := 5, _cursor_enabled := true }

/-- The spec's own example: mark = 2, cursor = 5 on five characters. -/
def markBeforeCursorState : TextScreen :=
  { TextScreen.new 800 600 32 with
      content := hlChars, cursor_abs := 5, highlight_mark := 2, _cursor_enabled := true }

def wideChar (c : Char) (w a : Nat) : FontChar := ⟨c, ⟨0, 0, w, 5⟩, a, 0, 0, 0⟩

def plainFont : FontDef := ⟨5, 0, 0, 0, [], 0, 0, 0, 0, 0, false⟩

/-- The C6 counterexample input: target width 10; a 2px glyph followed by
a 9px glyph. -/
def overflowState : TextScreen :=
  { TextScreen.new 10 600 1 with content := [wideChar 'a' 2 2, wideChar 'b' 9 9] }

def ANSI_CHAR_RANGE : Nat := 0x80
def FONT_SIZE : Nat := 32
def FONT_SPACING : Nat := 2 * (FONT_SIZE / 64)
def ATLAS_MAX_WIDTH : Nat := 16384
def ATLAS_MAX_HEIGHT : Nat := 16384

/-- The black-box FreeType rasterizer output for one glyph; `width` and
`height` carry the values after the `>> 6` fixed-point shift the source
applies to `glyph.metrics()` (assumed non-negative, so the `as i32` and
`as u32` shifts agree), `bl`/`bt` are `bitmap_left()`/`bitmap_top()`, and
`ax`/`ay` the advance. -/
structure RasterGlyph where
  width : Nat
  height : Nat
  bl : Int
  bt : Int
  ax : Nat
  ay : Nat
deriving DecidableEq

/-- The five running maxima of the `build_atlas` glyph loop. -/
structure BuildMaxima where
  max_ascent : Nat
  max_descent : Nat
  max_forward : Nat
  max_back : Nat
  max_width : Nat
deriving DecidableEq

/-- `main.rs` lines 277-295: the per-glyph maxima updates (each `u32`
maximum only moves when the signed candidate exceeds it). -/
def updateMaxima (m : BuildMaxima) (g : RasterGlyph) : BuildMaxima :=
  { max_ascent := if g.bt > (m.max_ascent : Int) then g.bt.toNat else m.max_ascent,
    max_descent := if (g.height : Int) - g.bt > (m.max_descent : Int)
      then ((g.height : Int) - g.bt).toNat else m.max_descent,
    max_back := if g.bl > (m.max_back : Int) then g.bl.toNat else m.max_back,
    max_forward := if (g.width : Int) - g.bl > (m.max_forward : Int)
      then ((g.width : Int) - g.bl).toNat else m.max_forward,
    max_width := if g.width > m.max_width then g.width else m.max_width }

/-- The fold state of the atlas loop: running maxima, the codepoint map,
and the rectangles each glyph bitmap was actually blitted to. -/
structure AtlasBuild where
  maxima : BuildMaxima
  map : List (Nat × AtlasEntry)
  blits : List (Nat × Rect)
deriving DecidableEq

/-- The `for y in 0.._atlas_rows { for x in 0.._atlas_cols }` cell order. -/
def atlasCells (rows cols : Nat) : List (Nat × Nat) :=
  (List.range rows).flatMap (fun y => (List.range cols).map (fun x => (y, x)))

/-- One iteration of the atlas glyph loop (`main.rs` lines 267-336):
note `ch = y * _atlas_rows + x` (the source multiplies by the ROW count),
the stored entry position `(x * FONT_SIZE, y * atlas_height)` (the
constant font size and the TOTAL atlas height), and the blit destination
`(x * font_size, y * atlas_glyph_height)`. -/
def buildCell (glyphs : Nat → RasterGlyph) (font_size line_height atlas_height rows : Nat)
    (st : AtlasBuild) (cell : Nat × Nat) : AtlasBuild :=
  { maxima := updateMaxima st.maxima (glyphs (cell.1 * rows + cell.2)),
    map := hmInsert st.map (cell.1 * rows + cell.2)
      { _ax := (glyphs (cell.1 * rows + cell.2)).ax,
        _ay := (glyphs (cell.1 * rows + cell.2)).ay,
        x := cell.2 * FONT_SIZE,
        y := cell.1 * atlas_height,
        height := (glyphs (cell.1 * rows + cell.2)).height,
        width := (glyphs (cell.1 * rows + cell.2)).width,
        bl := (glyphs (cell.1 * rows + cell.2)).bl,
        bt := (glyphs (cell.1 * rows + cell.2)).bt },
    blits := st.blits ++
      [(cell.1 * rows + cell.2,
        ⟨(cell.2 * font_size : Nat), (cell.1 * line_height : Nat), font_size, line_height⟩)] }

/-- The geometry-independent tail of `build_atlas`: run the glyph loop
over `rows × cols` cells, panic (`none`) when the atlas height exceeds
`ATLAS_MAX_HEIGHT`, then build the `FontDef` with the source's call-site
argument order `(…, max_ascent, max_descent, font_size, max_back,
max_forward, monospaced)`. -/
def build_atlas_with (glyphs : Nat → RasterGlyph) (line_height font_size : Nat)
    (monospaced : Bool) (rows cols : Nat) : Option (FontDef × AtlasBuild) :=
  let atlas_height := line_height * rows
  if atlas_height > ATLAS_MAX_HEIGHT then none
  else
    let b := (atlasCells rows cols).foldl
      (buildCell glyphs font_size line_height atlas_height rows) ⟨⟨0, 0, 0, 0, 0⟩, [], []⟩
    (FontDef.new b.map (wrapAdd b.maxima.max_ascent b.maxima.max_descent)
      b.maxima.max_width FONT_SPACING b.maxima.max_ascent b.maxima.max_descent
      font_size b.maxima.max_back b.maxima.max_forward monospaced).map (fun fd => (fd, b))

/-- `main.rs` `Renderer::build_atlas`, with the rasterizer as a black-box
parameter (`glyphs cp` = metrics FreeType reports for codepoint `cp`,
`line_height` = `size_metrics().height >> 6`).  The three-way geometry
branch picks `_atlas_rows`/`_atlas_cols`; `ATLAS_MAX_WIDTH / font_size`
with `font_size = 0` is a `u32` division by zero, a panic (`none`). -/
def build_atlas (glyphs : Nat → RasterGlyph) (line_height font_size : Nat)
    (monospaced : Bool) : Option (FontDef × AtlasBuild) :=
  if ANSI_CHAR_RANGE * font_size > ATLAS_MAX_WIDTH then
    build_atlas_with glyphs line_height font_size monospaced
      (ANSI_CHAR_RANGE * font_size / ATLAS_MAX_WIDTH + 1) (ATLAS_MAX_WIDTH / font_size)
  else if ANSI_CHAR_RANGE * font_size % ATLAS_MAX_WIDTH = 0 then
    if font_size = 0 then none
    else build_atlas_with glyphs line_height font_size monospaced
      (ANSI_CHAR_RANGE * font_size / ATLAS_MAX_WIDTH) (ATLAS_MAX_WIDTH / font_size)
  else
    build_atlas_with glyphs line_height font_size monospaced 1 ANSI_CHAR_RANGE

theorem wrapAdd_eq_of_lt {a b : Nat} (h : a + b < u32size) : wrapAdd a b = a + b :=
  Nat.mod_eq_of_lt h

theorem wrapSub1_wrapAdd_one {a : Nat} (h : a < u32size) :
    wrapSub1 (wrapAdd a 1) = a := by
  unfold wrapSub1 wrapAdd
  rcases Nat.lt_or_ge (a + 1) u32size with h1 | h1
  · rw [Nat.mod_eq_of_lt h1]
    have : a + 1 + (u32size - 1) = a + u32size := by omega
    rw [this, Nat.add_mod_right]
    exact Nat.mod_eq_of_lt h
  · have ha : a + 1 = u32size := by omega
    have : (a + 1) % u32size = 0 := by rw [ha]; exact Nat.mod_self _
    rw [this]
    have : (0 + (u32size - 1)) = u32size - 1 := by omega
    rw [this, Nat.mod_eq_of_lt (by omega)]
    omega

theorem cursor_forward_get_eq {s : TextScreen} {c : FontChar}
    (h : s.content[s.cursor_abs]? = some c) :
    s.cursor_forward =
      if c.ch = '\n' then
        { s with cursor_col := 0, cursor_row := wrapAdd s.cursor_row 1,
                 cursor_abs := wrapAdd s.cursor_abs 1 }
      else
        { s with cursor_col := wrapAdd s.cursor_col 1,
                 cursor_abs := wrapAdd s.cursor_abs 1 } := by
  unfold TextScreen.cursor_forward
  rw [h]

theorem cursor_forward_none_eq {s : TextScreen}
    (h : s.content[s.cursor_abs]? = none) : s.cursor_forward = s := by
  unfold TextScreen.cursor_forward
  rw [h]

theorem cursor_back_get_eq {s : TextScreen} {c : FontChar}
    (h : s.content[wrapSub1 s.cursor_abs]? = some c) :
    s.cursor_back =
      if s.cursor_col = 0 then
        { s with cursor_row := wrapSub1 s.cursor_row,
                 cursor_col := wrapSub1 (u32Mod (TextScreen.trailingRunLen s.content)),
                 cursor_abs := wrapSub1 s.cursor_abs }
      else
        { s with cursor_col := wrapSub1 s.cursor_col,
                 cursor_abs := wrapSub1 s.cursor_abs } := by
  unfold TextScreen.cursor_back
  rw [h]

theorem cursor_back_none_eq {s : TextScreen}
    (h : s.content[wrapSub1 s.cursor_abs]? = none) : s.cursor_back = s := by
  unfold TextScreen.cursor_back
  rw [h]

theorem cursor_forward_of_get {s : TextScreen} {c : FontChar}
    (h : s.content[s.cursor_abs]? = some c) :
    s.cursor_forward.content = s.content ∧
    s.cursor_forward.cursor_abs = wrapAdd s.cursor_abs 1 := by
  rw [cursor_forward_get_eq h]
  by_cases hc : c.ch = '\n' <;> simp [hc]

theorem cursor_back_of_get {s : TextScreen} {c : FontChar}
    (h : s.content[wrapSub1 s.cursor_abs]? = some c) :
    s.cursor_back.content = s.content ∧
    s.cursor_back.cursor_abs = wrapSub1 s.cursor_abs := by
  rw [cursor_back_get_eq h]
  by_cases hc : s.cursor_col = 0 <;> simp [hc]

/-- C1: for every `TextScreen` state whose cursor is a valid insertion point
(and whose length fits in a `u32`), `push_char c` immediately followed by
`pop_char` succeeds (no panic) and restores both the content length and
`cursor_abs` to their prior values, for any `c` — `'\n'` included. -/
theorem pushChar_popChar_roundtrip (s : TextScreen) (c : FontChar)
    (h1 : s.cursor_abs ≤ s.content.length) (h2 : s.content.length + 1 < u32size) :
    ∃ t r, (s.push_char c).bind TextScreen.pop_char = some (t, r) ∧
      t.content.length = s.content.length ∧ t.cursor_abs = s.cursor_abs := by
  have habs : s.cursor_abs < u32size := by omega
  have hlen : (s.content.insertIdx s.cursor_abs c).length = s.content.length + 1 :=
    List.length_insertIdx _ _ h1
  have hlt : s.cursor_abs < (s.content.insertIdx s.cursor_abs c).length := by omega
  have hget : (s.content.insertIdx s.cursor_abs c)[s.cursor_abs]? = some c := by
    rw [List.getElem?_eq_getElem hlt]
    exact congrArg some (List.getElem_insertIdx_self _ _ _ h1)
  have hpush : s.push_char c =
      some (TextScreen.cursor_forward { s with content := s.content.insertIdx s.cursor_abs c }) := by
    simp [TextScreen.push_char, h1]
  set t0 := TextScreen.cursor_forward { s with content := s.content.insertIdx s.cursor_abs c }
    with ht0
  have ht0c : t0.content = s.content.insertIdx s.cursor_abs c ∧
      t0.cursor_abs = wrapAdd s.cursor_abs 1 := cursor_forward_of_get hget
  have hget1 : t0.content[wrapSub1 t0.cursor_abs]? = some c := by
    rw [ht0c.1, ht0c.2, wrapSub1_wrapAdd_one habs, hget]
  have ht1c : t0.cursor_back.content = s.content.insertIdx s.cursor_abs c ∧
      t0.cursor_back.cursor_abs = s.cursor_abs := by
    have := cursor_back_of_get hget1
    rw [ht0c.1, ht0c.2, wrapSub1_wrapAdd_one habs] at this
    exact this
  have hlt1 : t0.cursor_back.cursor_abs < t0.cursor_back.content.length := by
    rw [ht1c.1, ht1c.2]; omega
  have hne : t0.cursor_back.content.length ≠ 0 := by rw [ht1c.1]; omega
  refine ⟨{ t0.cursor_back with
              content := t0.cursor_back.content.eraseIdx t0.cursor_back.cursor_abs },
          some (t0.cursor_back.content.get ⟨t0.cursor_back.cursor_abs, hlt1⟩), ?_, ?_, ?_⟩
  · rw [hpush]
    rw [show (some t0).bind TextScreen.pop_char = TextScreen.pop_char t0 from rfl]
    unfold TextScreen.pop_char
    rw [if_pos hne, dif_pos hlt1]
  · rw [ht1c.1, ht1c.2, List.eraseIdx_insertIdx]
  · exact ht1c.2

/-- Witness for C1 at a concrete state. -/
theorem pushChar_popChar_roundtrip_witness :
    ∃ t r, ((TextScreen.new 800 600 32).push_char (mkFC 'a')).bind TextScreen.pop_char
        = some (t, r) ∧
      t.content.length = (TextScreen.new 800 600 32).content.length ∧
      t.cursor_abs = (TextScreen.new 800 600 32).cursor_abs :=
  pushChar_popChar_roundtrip (TextScreen.new 800 600 32) (mkFC 'a') (by decide) (by decide)

/-- C2 is a code bug: with the cursor at absolute position 0 on a
non-empty buffer, `pop_char` is not a no-op — `cursor_back` does not move,
yet the length guard passes and `Vec::remove(0)` deletes the character at
(not before) the cursor and returns it, leaving `cursor_abs = 0`. -/
theorem popChar_at_zero_nonempty_removes_head :
    popAtZeroState.cursor_abs = 0 ∧ popAtZeroState.content = [mkFC 'a'] ∧
    (TextScreen.pop_char popAtZeroState).map (fun p => (p.1.content, p.1.cursor_abs, p.2))
      = some ([], 0, some (mkFC 'a')) := by
  decide

/-- C3: `cursor_forward` with the cursor at the end of the content and
`cursor_back` with the cursor at absolute position 0 are silent no-ops:
the whole state (all cursor fields included) is unchanged. -/
theorem cursor_clamp_noop (s : TextScreen) (hlen : s.content.length < u32size) :
    (s.cursor_abs = s.content.length → s.cursor_forward = s) ∧
    (s.cursor_abs = 0 → s.cursor_back = s) := by
  constructor
  · intro h
    apply cursor_forward_none_eq
    rw [List.getElem?_eq_none]
    omega
  · intro h
    apply cursor_back_none_eq
    rw [List.getElem?_eq_none]
    rw [h]
    show s.content.length ≤ wrapSub1 0
    have : wrapSub1 0 = u32size - 1 := by norm_num [wrapSub1, u32size]
    omega

/-- Witness for C3 at a concrete state (empty buffer: the cursor is both
at the end and at position 0). -/
theorem cursor_clamp_noop_witness :
    TextScreen.cursor_forward (TextScreen.new 1 1 1) = TextScreen.new 1 1 1 ∧
    TextScreen.cursor_back (TextScreen.new 1 1 1) = TextScreen.new 1 1 1 :=
  ⟨(cursor_clamp_noop (TextScreen.new 1 1 1) (by decide)).1 rfl,
   (cursor_clamp_noop (TextScreen.new 1 1 1) (by decide)).2 rfl⟩

/-- C5 is a code bug: after the sequence above the content holds no `'\n'`
before `cursor_abs` (which is 0), yet `cursor_row` is `u32::MAX` — the
third `cursor_back` sees the buggy `cursor_col = 0` and wraps
`cursor_row` below zero, so the claimed invariant fails. -/
theorem cursorRow_newline_desync :
    cursorRowSeq.map (fun s => (newlinesBeforeCursor s, s.cursor_row))
      = some (0, 4294967295) ∧ (0 : Nat) ≠ 4294967295 := by
  decide

/-- C10: `clear()` resets the cursor fields and empties the content but
leaves `highlight_mark` untouched, whereas `TextScreen::new` starts it at
the `u32::MAX` NONE sentinel. -/
theorem clear_keeps_highlight_mark (s : TextScreen) (w h r : Nat) :
    s.clear.content = [] ∧ s.clear.cursor_abs = 0 ∧ s.clear.cursor_col = 0 ∧
    s.clear.cursor_row = 0 ∧ s.clear.highlight_mark = s.highlight_mark ∧
    (TextScreen.new w h r).highlight_mark = u32size - 1 :=
  ⟨rfl, rfl, rfl, rfl, rfl, rfl⟩

/-- C9: `get_char_aligned_rect(x, y, glyph)` returns exactly the
spec-contract rectangle: `x + (monospaced ? max_forward + bl : 0)`,
`y + (max_ascent - bt)`, width `glyph.width` when `glyph.width > 1` and
`whitespace_width` otherwise, height `glyph.height`. -/
theorem get_char_aligned_rect_contract (f : FontDef) (x y : Int) (g : AtlasEntry) :
    f.get_char_aligned_rect x y g =
      { x := x + (if f.monospaced then (f.max_forward : Int) + g.bl else 0),
        y := y + ((f.max_ascent : Int) - g.bt),
        width := if 1 < g.width then g.width else f.whitespace_width,
        height := g.height } := by
  unfold FontDef.get_char_aligned_rect
  simp only [Rect.mk.injEq]
  refine ⟨trivial, trivial, ?_, trivial⟩
  split_ifs with h1 h2 <;> first | rfl | omega

theorem render_step_cur_abs (s : TextScreen) (font : FontDef) (x y : Nat)
    (st : RenderState) (fch : FontChar) :
    (render_step s font x y st fch).cur_abs = wrapAdd st.cur_abs 1 := rfl

theorem foldl_highlights (s : TextScreen) (font : FontDef) (x y : Nat) :
    ∀ (l : List FontChar) (st : RenderState), st.cur_abs + l.length < u32size →
    (List.foldl (render_step s font x y) st l).highlights.map Prod.fst
      = st.highlights.map Prod.fst
        ++ (List.range' (st.cur_abs + 1) l.length).filter (fun i => hlCond s i) := by
  intro l
  induction l with
  | nil => intro st h; simp
  | cons a t ih =>
    intro st h
    have hlt : st.cur_abs + 1 < u32size := by simp at h; omega
    have hca : wrapAdd st.cur_abs 1 = st.cur_abs + 1 := wrapAdd_eq_of_lt hlt
    rw [List.foldl_cons, ih _ (by rw [render_step_cur_abs, hca]; simp at h ⊢; omega)]
    rw [render_step_cur_abs, hca, List.length_cons]
    rw [show List.range' (st.cur_abs + 1) (t.length + 1) =
          (st.cur_abs + 1) :: List.range' (st.cur_abs + 1 + 1) t.length from rfl]
    rw [List.filter_cons]
    have hh : (render_step s font x y st a).highlights
        = if hlCond s (wrapAdd st.cur_abs 1)
          then st.highlights ++ [(wrapAdd st.cur_abs 1, stepDst font x y st a)]
          else st.highlights := rfl
    rw [hh, hca]
    by_cases hc : hlCond s (st.cur_abs + 1)
    · rw [if_pos hc, if_pos hc]
      simp
    · rw [if_neg hc, if_neg (by simp [hc])]

/-- C4 (amended): the absolute indices that receive a highlight rectangle
during `render_all` are exactly those `i` in `1..=length` with
`cursor_enabled && highlight_mark < i && i <= cursor_abs` — the half-open
range `(highlight_mark, cursor_abs]`, NOT the symmetric
`(min(mark,cursor), max(mark,cursor)]`: nothing is highlighted when the
mark is at or after the cursor. -/
theorem render_highlight_range (s : TextScreen) (font : FontDef) (x y : Nat)
    (h : s.content.length < u32size) :
    (s.render_all font x y).highlights.map Prod.fst
      = (List.range' 1 s.content.length).filter (fun i => hlCond s i) := by
  have := foldl_highlights s font x y s.content initRender (by simpa [initRender] using h)
  simpa [TextScreen.render_all, initRender] using this

/-- C4 counterexample: with mark = 5 and cursor = 2 the claim says index 3
(in `(min 5 2, max 5 2] = (2,5]`) is highlighted, but `render_all`
highlights nothing — the condition `highlight_mark < cur_abs ≤ cursor_abs`
is not symmetric in mark and cursor. -/
theorem highlight_range_not_symmetric :
    ¬ ((3 ∈ (markAfterCursorState.render_all font0 0 0).highlights.map Prod.fst) ↔
        (Nat.min markAfterCursorState.highlight_mark markAfterCursorState.cursor_abs < 3 ∧
         3 ≤ Nat.max markAfterCursorState.highlight_mark markAfterCursorState.cursor_abs)) := by
  decide

/-- Witness for C4 (amended) at the spec's example: exactly indices 3, 4, 5
are highlighted. -/
theorem render_highlight_range_witness :
    (markBeforeCursorState.render_all font0 0 0).highlights.map Prod.fst = [3, 4, 5] :=
  (render_highlight_range markBeforeCursorState font0 0 0 (by decide)).trans (by decide)

/-- C6 counterexample: the second glyph is placed at x = 2 with width 9,
extending to 11 > 10 — a glyph CAN be placed past the target width,
because the wrap check runs only after the glyph's rectangle is emitted. -/
theorem render_glyph_exceeds_width :
    ¬ (∀ p ∈ (overflowState.render_all plainFont 0 0).placements,
         p.2.x + (p.2.width : Int) ≤ ((u32Mod overflowState.width : Nat) : Int)) := by
  decide

theorem foldl_placements_ext (s : TextScreen) (font : FontDef) (x y : Nat) :
    ∀ (l : List FontChar) (st : RenderState), ∃ tl,
      (List.foldl (render_step s font x y) st l).placements = st.placements ++ tl := by
  intro l
  induction l with
  | nil => intro st; exact ⟨[], by simp⟩
  | cons a t ih =>
    intro st
    obtain ⟨tl, htl⟩ := ih (render_step s font x y st a)
    refine ⟨[(wrapAdd st.cur_abs 1, stepDst font x y st a)] ++ tl, ?_⟩
    rw [List.foldl_cons, htl]
    show (render_step s font x y st a).placements ++ tl = _
    rw [show (render_step s font x y st a).placements
          = st.placements ++ [(wrapAdd st.cur_abs 1, stepDst font x y st a)] from rfl]
    rw [List.append_assoc]

theorem foldl_placements_length (s : TextScreen) (font : FontDef) (x y : Nat) :
    ∀ (l : List FontChar) (st : RenderState),
      (List.foldl (render_step s font x y) st l).placements.length
        = st.placements.length + l.length := by
  intro l
  induction l with
  | nil => intro st; simp
  | cons a t ih =>
    intro st
    rw [List.foldl_cons, ih]
    show ((render_step s font x y st a).placements).length + t.length = _
    rw [show (render_step s font x y st a).placements
          = st.placements ++ [(wrapAdd st.cur_abs 1, stepDst font x y st a)] from rfl]
    simp
    omega

/-- C6 (amended): in the layout pass each glyph's destination rectangle is
computed from the offsets as they stand BEFORE that glyph's wrap check;
the wrap (x_offset reset to 0, y_offset advanced by the row height) is
decided only afterwards, on `x + x_offset + advance > width || ch = '\n'`
with `x_offset` already advanced past the glyph, and so takes effect only
from the next glyph on.  (Consequently a glyph's rectangle can extend past
the target width — see the counterexample.) -/
theorem render_wrap_after_placement (s : TextScreen) (font : FontDef) (x y : Nat)
    (pre post : List FontChar) (fch : FontChar) (h : s.content = pre ++ fch :: post) :
    let st := List.foldl (render_step s font x y) initRender pre
    let dst := stepDst font x y st fch
    let adv := wrapAdd st.x_offset dst.width
    (s.render_all font x y).placements[pre.length]? = some (wrapAdd st.cur_abs 1, dst) ∧
    (List.foldl (render_step s font x y) initRender (pre ++ [fch])).x_offset
        = (if stepWrapHit s x adv fch then 0 else adv) ∧
    (List.foldl (render_step s font x y) initRender (pre ++ [fch])).y_offset
        = (if stepWrapHit s x adv fch
           then wrapAdd st.y_offset (u32Mod s.row_height) else st.y_offset) := by
  intro st dst adv
  have hpre_len : st.placements.length = pre.length := by
    have := foldl_placements_length s font x y pre initRender
    simpa [initRender] using this
  refine ⟨?_, ?_, ?_⟩
  · rw [TextScreen.render_all, h, List.foldl_append, List.foldl_cons]
    obtain ⟨tl, htl⟩ := foldl_placements_ext s font x y post (render_step s font x y st fch)
    rw [htl]
    rw [show (render_step s font x y st fch).placements
          = st.placements ++ [(wrapAdd st.cur_abs 1, dst)] from rfl]
    rw [List.append_assoc, List.getElem?_append_right (by omega)]
    rw [hpre_len]
    simp
  · rw [List.foldl_append, List.foldl_cons, List.foldl_nil]
    rfl
  · rw [List.foldl_append, List.foldl_cons, List.foldl_nil]
    rfl

/-- Witness for C6 (amended) at the counterexample state: the second
glyph's placement really is the pre-wrap rectangle (2, 0, 9, 5). -/
theorem render_wrap_after_placement_witness :
    (overflowState.render_all plainFont 0 0).placements[1]? = some (2, ⟨2, 0, 9, 5⟩) :=
  ((render_wrap_after_placement overflowState plainFont 0 0 [wideChar 'a' 2 2] []
      (wideChar 'b' 9 9) rfl).1).trans (by decide)

set_option maxRecDepth 10000 in
/-- C7 is a code bug: a successful multi-row atlas build (font size 256,
three rows of 64 columns) leaves codepoint 127 — inside the configured
0x00-0x7F range — without any GlyphRecord, so `get_char(127)` fails:
the loop computes `ch = y * _atlas_rows + x`, multiplying by the row
count instead of the column count. -/
theorem build_atlas_misses_codepoint :
    ((build_atlas (fun _ => ⟨8, 9, 3, 7, 10, 0⟩) 10 256 false).map
        (fun p => p.1.get_char 127)) = some none ∧ 127 < ANSI_CHAR_RANGE := by
  decide

set_option maxRecDepth 10000 in
/-- C8 is a code bug: after a successful default build (font size 32, one
row) whose running maxima are `max_back = 3` and `max_forward = 5`, the
resulting `FontDef` holds `max_back = 32` (the font size),
`max_forward = 3` and `font_pixel_size = 5` — the `FontDef::new` call
site passes `(…, font_size, max_back, max_forward, …)` into the
parameters `(…, max_back, max_forward, font_pixel_size, …)`. -/
theorem build_atlas_swaps_fontdef_args :
    ((build_atlas (fun _ => ⟨8, 9, 3, 7, 10, 0⟩) 40 32 false).map
        (fun p => (p.1.max_back, p.1.max_forward, p.1.font_pixel_size,
                   p.2.maxima.max_back, p.2.maxima.max_forward)))
      = some (32, 3, 5, 3, 5) ∧ (32 : Nat) ≠ 3 ∧ (3 : Nat) ≠ 5 := by
  decide
